import Mathlib

/-!
# Verification of the container tool core (`proxmox_mcp/tools/containers.py`)

Shallow embedding of the container listing / stats resolution / selector
resolution / bulk action logic of the repository's `containers.py`, together
with theorems settling the specification claims.

Modelling conventions:
* Python strings are modelled as `List Char` (`Str`); Python `str` helpers
  (`strip`, `split`, `lower`, `isdigit`, `int(...)`, `float(...)`) are
  re-implemented over `List Char`, restricted to their ASCII behaviour.
* Python numbers are modelled exactly: `int` as `ℤ`, `float` as `ℚ`
  (non-finite floats are outside the model).  Python's `round` (banker's
  rounding, half to even) is `roundHE` / `round2`.
* The remote hypervisor API is an opaque record of functions returning
  `Except Str payload`; a Python exception is an `Except.error`.
* Remote payloads are typed post-`_as_dict` dictionaries with `Option`
  fields (`none` = key absent or `null`), matching the shapes §6 of the
  spec promises for each endpoint; `_as_list`'s shape coercion is kept
  explicitly for the endpoints whose claims depend on it.
-/

set_option maxRecDepth 10000
set_option maxHeartbeats 1000000
set_option synthInstance.maxHeartbeats 400000

/-- Python strings, modelled as lists of characters. -/
abbrev Str := List Char

/-- Coerce a Lean string literal into the model's string type. -/
def strLit (s : String) : Str := s.data

/-- ASCII whitespace, the characters `str.strip` removes that matter here. -/
def isSpaceChar (c : Char) : Bool :=
  c = ' ' || c = '\t' || c = '\n' || c = '\r'

/-- Python `str.strip()` (ASCII whitespace). -/
def trimStr (s : Str) : Str :=
  ((s.dropWhile isSpaceChar).reverse.dropWhile isSpaceChar).reverse

/-- Python `str.split(c)`: split on every occurrence of `c`. -/
def splitOnChar (c : Char) : Str → List Str
  | [] => [[]]
  | a :: t =>
    let r := splitOnChar c t
    if a = c then [] :: r
    else
      match r with
      | h :: t' => (a :: h) :: t'
      | [] => [[a]]

/-- Python `str.split(c, 1)` for a string containing `c`: the part before the
first occurrence and the part after it. -/
def splitFirst (c : Char) : Str → Str × Str
  | [] => ([], [])
  | a :: t =>
    if a = c then ([], t)
    else
      let r := splitFirst c t
      (a :: r.1, r.2)

/-- ASCII lower-casing of one character (Python `str.lower` on ASCII). -/
def asciiLower (c : Char) : Char :=
  if 'A' ≤ c ∧ c ≤ 'Z' then Char.ofNat (c.toNat + 32) else c

/-- Python `str.lower()` (ASCII fragment). -/
def lowerStr (s : Str) : Str := s.map asciiLower

/-- Is `c` an ASCII decimal digit? -/
def isDigitChar (c : Char) : Bool := '0' ≤ c && c ≤ '9'

/-- Python `str.isdigit()` (ASCII fragment): nonempty and all digits. -/
def isDigitStr (s : Str) : Bool := !s.isEmpty && s.all isDigitChar

/-- Numeric value of a string of ASCII digits. -/
def digitsToNat (s : Str) : ℕ :=
  s.foldl (fun a c => a * 10 + (c.toNat - 48)) 0

/-- Python `int(s)`: strip whitespace, optional sign, then decimal digits;
anything else raises, modelled as `none`. -/
def parseIntOpt (s : Str) : Option ℤ :=
  let t := trimStr s
  match t with
  | '-' :: r => if isDigitStr r then some (-(digitsToNat r : ℤ)) else none
  | '+' :: r => if isDigitStr r then some ((digitsToNat r : ℤ)) else none
  | r => if isDigitStr r then some ((digitsToNat r : ℤ)) else none

/-- Decimal digits of a natural number. -/
def natToStr (n : ℕ) : Str := Nat.toDigits 10 n

/-- Decimal rendering of an integer. -/
def intToStr (z : ℤ) : Str :=
  if z < 0 then '-' :: natToStr z.natAbs else natToStr z.natAbs

/-- Python `round(q)`: round half to even, exact on rationals. -/
def roundHE (q : ℚ) : ℤ :=
  let f := ⌊q⌋
  let r := q - (f : ℚ)
  if r < 1/2 then f
  else if 1/2 < r then f + 1
  else if f % 2 = 0 then f else f + 1

/-- Python `round(q, 2)`: round half to even at two decimal places. -/
def round2 (q : ℚ) : ℚ := ((roundHE (q * 100) : ℚ)) / 100

/-- A Python value that may be passed to `_b2h`: an int, a float (modelled as
an exact rational), or a string. -/
inductive PyVal where
  | pint (n : ℤ)
  | pfloat (q : ℚ)
  | pstr (s : Str)
deriving DecidableEq

/-- Exponent part of a float literal: empty, or `e`/`E`, optional sign,
one or more digits.  Returns the mantissa scaled by the exponent. -/
def parseExpPart (m : ℚ) : Str → Option ℚ
  | [] => some m
  | c :: r =>
    if c = 'e' ∨ c = 'E' then
      let sr : ℤ × Str :=
        match r with
        | '-' :: rr => (-1, rr)
        | '+' :: rr => (1, rr)
        | rr => (1, rr)
      if !sr.2.isEmpty && sr.2.all isDigitChar then
        some (m * (10 : ℚ) ^ (sr.1 * (digitsToNat sr.2 : ℤ)))
      else none
    else none

/-- Python `float(s)` on finite decimal literals: optional sign, digits with
an optional decimal point (at least one digit overall), optional exponent.
Non-finite literals (`inf`, `nan`) are outside the rational model. -/
def parseFloatStr (s : Str) : Option ℚ :=
  let t := trimStr s
  let sr : ℚ × Str :=
    match t with
    | '-' :: r => (-1, r)
    | '+' :: r => (1, r)
    | r => (1, r)
  if sr.2.isEmpty then none
  else
    let intD := sr.2.takeWhile isDigitChar
    let rest1 := sr.2.drop intD.length
    match rest1 with
    | '.' :: r2 =>
      let fracD := r2.takeWhile isDigitChar
      let rest2 := r2.drop fracD.length
      if intD.isEmpty && fracD.isEmpty then none
      else
        parseExpPart
          (sr.1 * ((digitsToNat intD : ℚ) +
            (digitsToNat fracD : ℚ) / (10 : ℚ) ^ fracD.length)) rest2
    | _ =>
      if intD.isEmpty then none
      else parseExpPart (sr.1 * (digitsToNat intD : ℚ)) rest1

/-- `float(n)` applied to a `_b2h` argument: exact for ints and floats,
string parsing for strings (`none` = `float(...)` raised). -/
def parseNum : PyVal → Option ℚ
  | .pint n => some (n : ℚ)
  | .pfloat q => some q
  | .pstr s => parseFloatStr s

/-- The unit-scaling loop of `_b2h`: divide by 1024 while the value is at
least 1024 and the unit index is below the last unit (index 5 = PiB). -/
def b2hLoop (n : ℚ) (i : ℕ) : ℚ × ℕ :=
  if 1024 ≤ n ∧ i < 5 then b2hLoop (n / 1024) (i + 1) else (n, i)
termination_by 5 - i
decreasing_by omega

/-- The unit names of `_b2h`. -/
def unitStr : ℕ → Str
  | 0 => strLit "B"
  | 1 => strLit "KiB"
  | 2 => strLit "MiB"
  | 3 => strLit "GiB"
  | 4 => strLit "TiB"
  | _ => strLit "PiB"

/-- Python `f"{q:.2f}"` on an exact rational. -/
def format2 (q : ℚ) : Str :=
  let c := roundHE (q * 100)
  let a := c.natAbs
  let ip := a / 100
  let fp := a % 100
  (if c < 0 then ['-'] else []) ++ natToStr ip ++ ['.'] ++
    (if fp < 10 then '0' :: natToStr fp else natToStr fp)

/-- `_b2h` (containers.py lines 9-20): bytes to a human-readable binary-unit
string; unparseable inputs yield `"0.00 B"`. -/
def b2h (v : PyVal) : Str :=
  match parseNum v with
  | none => strLit "0.00 B"
  | some n =>
    let p := b2hLoop n 0
    format2 p.1 ++ [' '] ++ unitStr p.2

/-- Decidable equality of remote-call outcomes. -/
instance {ε α : Type} [DecidableEq ε] [DecidableEq α] : DecidableEq (Except ε α) :=
  fun x y =>
    match x, y with
    | .ok a, .ok b =>
      if h : a = b then .isTrue (by rw [h])
      else .isFalse (by intro hh; injection hh with h2; exact h h2)
    | .ok _, .error _ => .isFalse (fun h => Except.noConfusion h)
    | .error _, .ok _ => .isFalse (fun h => Except.noConfusion h)
    | .error e, .error f =>
      if h : e = f then .isTrue (by rw [h])
      else .isFalse (by intro hh; injection hh with h2; exact h h2)

/-! ## Remote payloads (post-`_as_dict` shapes) and the stats record -/

/-- `/status/current` payload after `_as_dict`: the fields `get_containers`
reads, `none` meaning the key is absent. -/
structure StatusPayload where
  status : Option Str
  cpu : Option ℚ
  mem : Option ℤ
  maxmem : Option ℤ
deriving DecidableEq

/-- `/config` payload after `_as_dict`: the fields `get_containers` reads. -/
structure ConfigPayload where
  memory : Option ℤ
  ram : Option ℤ
  maxmem : Option ℤ
  memoryMiB : Option ℤ
  swap : Option ℤ
  cores : Option ℤ
  cpulimit : Option ℚ
deriving DecidableEq

/-- One RRD data point: the `cpu` fraction and `mem`/`maxmem` byte counts,
`none` meaning the key is absent. -/
structure RrdSample where
  cpu : Option ℚ
  mem : Option ℤ
  maxmem : Option ℤ
deriving DecidableEq

/-- The empty dict `{}` that a failed status fetch degrades to. -/
def emptyStatus : StatusPayload := ⟨none, none, none, none⟩

/-- The empty dict `{}` that a failed config fetch degrades to. -/
def emptyConfig : ConfigPayload := ⟨none, none, none, none, none, none, none⟩

/-- `_status_and_config`'s per-fetch try/except: a raised fetch degrades to
the empty dict (containers.py lines 124-136). -/
def degradeSt : Except Str StatusPayload → StatusPayload
  | .ok d => d
  | .error _ => emptyStatus

/-- `_status_and_config`'s per-fetch try/except for the config fetch. -/
def degradeCfg : Except Str ConfigPayload → ConfigPayload
  | .ok d => d
  | .error _ => emptyConfig

/-- The stats fields of one row of `get_containers`. -/
structure StatsRecord where
  cores : Option ℚ
  memory : ℤ
  cpu_pct : ℚ
  mem_bytes : ℤ
  maxmem_bytes : ℤ
  mem_pct : Option ℚ
  unlimited_memory : Bool
deriving DecidableEq

/-- Python `x or y` for an optional string: `none` and the empty string are
falsy. -/
def orStr (o : Option Str) (d : Str) : Str :=
  match o with
  | some s => if s = [] then d else s
  | none => d

/-- `str(_get(raw_status, "status") or _get(ct, "status") or "").lower()`
(containers.py line 245). -/
def statusLower (live ct : Option Str) : Str :=
  lowerStr (orStr live (orStr ct []))

/-- The config-alias chain `memory` / `ram` / `maxmem` / `memoryMiB`
(containers.py lines 218-224): first key that is not `None` wins, including
a value of `0`. -/
def cfgMemChain (c : ConfigPayload) : Option ℤ :=
  c.memory <|> c.ram <|> c.maxmem <|> c.memoryMiB

/-- Intermediate per-target stats state, before the RRD fallback. -/
structure MidStats where
  cpu_pct : ℚ
  mem : ℤ
  maxmem : ℤ
  memory_mib : ℤ
  cores : Option ℚ
  unlimited : Bool
deriving DecidableEq

/-- The live/config phase of `get_containers` (containers.py lines 205-258):
live `cpu`/`mem`/`maxmem` with zero defaults, config-derived `memory_mib`,
`cores` and `unlimited_memory`, the stopped override, and the
config-derived `maxmem_bytes` fallback. -/
def livePhase (ctStatus : Option Str) (st : Except Str StatusPayload)
    (cfg : Except Str ConfigPayload) : MidStats :=
  let s := degradeSt st
  let c := degradeCfg cfg
  let cpu_frac : ℚ := s.cpu.getD 0
  let cpu_pct := round2 (cpu_frac * 100)
  let mem0 : ℤ := s.mem.getD 0
  let maxmem0 : ℤ := s.maxmem.getD 0
  let memory_mib : ℤ := (cfgMemChain c).getD 0
  let unlimited : Bool := decide (c.swap.getD 0 = 0 ∧ memory_mib = 0)
  let cores : Option ℚ :=
    match c.cores with
    | some k => some ((k : ℚ))
    | none =>
      match c.cpulimit with
      | some l => if 0 < l then some l else none
      | none => none
  let sl := statusLower s.status ctStatus
  let mem1 : ℤ := if sl = strLit "stopped" then 0 else mem0
  let maxmem1 : ℤ :=
    if maxmem0 = 0 ∧ 0 < memory_mib then memory_mib * 1024 * 1024 else maxmem0
  ⟨cpu_pct, mem1, maxmem1, memory_mib, cores, unlimited⟩

/-- `_rrd_last` (containers.py lines 109-122): the most recent RRD sample as
`(cpu_pct, mem_bytes, maxmem_bytes)`; a raised fetch, an empty series, or a
non-dict last element yield `(none, none, none)`.  The RRD `cpu` is a
fraction and is converted to a percentage here, without rounding. -/
def rrdLast (rrd : Except Str (List (Option RrdSample))) :
    Option ℚ × Option ℤ × Option ℤ :=
  match rrd with
  | .error _ => (none, none, none)
  | .ok l =>
    match l.getLast? with
    | none => (none, none, none)
    | some none => (none, none, none)
    | some (some sm) =>
      (some ((sm.cpu.getD 0) * 100), some (sm.mem.getD 0), some (sm.maxmem.getD 0))

/-- The RRD fallback block of `get_containers` (containers.py lines 259-272):
if any of `mem_bytes`, `maxmem_bytes`, `cpu_pct` is zero, fill exactly the
still-zero fields from the last RRD sample; a nonzero `maxmem` fill with a
zero config `memory_mib` back-derives `memory_mib` from it. -/
def fallbackPhase (l : MidStats) (r : Option ℚ × Option ℤ × Option ℤ) : MidStats :=
  if l.mem = 0 ∨ l.maxmem = 0 ∨ l.cpu_pct = 0 then
    let cpu' := if l.cpu_pct = 0 then r.1.getD 0 else l.cpu_pct
    let mem' := if l.mem = 0 then r.2.1.getD 0 else l.mem
    let fillMax := l.maxmem = 0 ∧ r.2.2.getD 0 ≠ 0
    let maxmem' := if fillMax then r.2.2.getD 0 else l.maxmem
    let mib' :=
      if fillMax ∧ l.memory_mib = 0 then
        roundHE ((maxmem' : ℚ) / (1024 * 1024))
      else l.memory_mib
    ⟨cpu', mem', maxmem', mib', l.cores, l.unlimited⟩
  else l

/-- Assembly of the final stats fields (containers.py lines 274-286),
including the derived `mem_pct`. -/
def assembleStats (m : MidStats) : StatsRecord :=
  ⟨m.cores, m.memory_mib, m.cpu_pct, m.mem, m.maxmem,
    if 0 < m.maxmem then some (round2 ((m.mem : ℚ) / (m.maxmem : ℚ) * 100)) else none,
    m.unlimited⟩

/-- Stats Resolution for one `(node, id)` target: the per-row stats body of
`get_containers` (containers.py lines 205-286), as a function of the
enumeration record's status string and the three fetch outcomes. -/
def resolveStats (ctStatus : Option Str) (st : Except Str StatusPayload)
    (cfg : Except Str ConfigPayload)
    (rrd : Except Str (List (Option RrdSample))) : StatsRecord :=
  assembleStats (fallbackPhase (livePhase ctStatus st cfg) (rrdLast rrd))

/-! ## Inventory enumeration -/

/-- A raw container record from enumeration: the fields the tool reads. -/
structure CtRecord where
  vmid : Option ℤ
  name : Option Str
  hostname : Option Str
  status : Option Str
deriving DecidableEq

/-- One element of a `/lxc` listing: a keyed record, or a bare scalar that
either parses as an integer id or not. -/
inductive LxcItem where
  | dict (r : CtRecord)
  | scalar (v : Option ℤ)
deriving DecidableEq

/-- A `/lxc` listing payload before `_as_list`: a bare list, a
`{"data": list}` envelope, or anything else. -/
inductive LxcPayload where
  | plist (l : List LxcItem)
  | envl (l : List LxcItem)
  | malformed
deriving DecidableEq

/-- `_as_list` (containers.py lines 42-50) on a `/lxc` payload: unwrap the
envelope, coerce anything else to the empty list. -/
def asListLxc : LxcPayload → List LxcItem
  | .plist l => l
  | .envl l => l
  | .malformed => []

/-- One element of the cluster node listing: its extracted `node` name
(`none` when the entry is not a dict or has no name). -/
structure NodeItem where
  node : Option Str
deriving DecidableEq

/-- A cluster node-listing payload before `_as_list`. -/
inductive NodesPayload where
  | plist (l : List NodeItem)
  | envl (l : List NodeItem)
  | malformed
deriving DecidableEq

/-- `_as_list` on the node-listing payload. -/
def asListNodes : NodesPayload → List NodeItem
  | .plist l => l
  | .envl l => l
  | .malformed => []

/-- The opaque remote API surface used by the container tools; an
`Except.error` models a raised remote call. -/
structure Api where
  nodesGet : Except Str NodesPayload
  lxcGet : Str → Except Str LxcPayload
  statusCurrent : Str → ℤ → Except Str StatusPayload
  configGet : Str → ℤ → Except Str ConfigPayload
  rrddata : Str → ℤ → Except Str (List (Option RrdSample))
  startPost : Str → ℤ → Except Str Str
  shutdownPost : Str → ℤ → ℤ → Except Str Str
  stopPost : Str → ℤ → Except Str Str
  rebootPost : Str → ℤ → Except Str Str
  configPut : Str → ℤ → Option ℤ → Option ℤ → Option ℤ → Except Str Str
  resizePut : Str → ℤ → Str → Str → Except Str Str

/-- Normalization of one listing entry (containers.py lines 82-90 and
98-106): keyed records pass through, integer scalars synthesize a minimal
record, unparseable scalars are dropped. -/
def itemToEntry (nm : Str) : LxcItem → Option (Str × CtRecord)
  | .dict r => some (nm, r)
  | .scalar (some v) => some (nm, ⟨some v, none, none, none⟩)
  | .scalar none => none

/-- One node's contribution to the enumeration: fetch its `/lxc` listing
(no try/except — a raised call propagates) and normalize the entries. -/
def perNodeList (api : Api) (nm : Str) : Except Str (List (Str × CtRecord)) :=
  match api.lxcGet nm with
  | .error e => .error e
  | .ok raw => .ok ((asListLxc raw).filterMap (itemToEntry nm))

/-- The `for n in nodes` loop of `_list_ct_pairs` (containers.py lines
93-106): accumulate each node's normalized entries in order; the first
raised listing call aborts the loop with that error. -/
def clusterFold (api : Api) : List Str → List (Str × CtRecord) →
    Except Str (List (Str × CtRecord))
  | [], acc => .ok acc
  | nm :: rest, acc =>
    match perNodeList api nm with
    | .error e => .error e
    | .ok l => clusterFold api rest (acc ++ l)

/-- `_list_ct_pairs` (containers.py lines 77-107): enumerate one node or the
whole cluster; node entries with a falsy name are skipped; remote-call
errors propagate to the caller. -/
def listCtPairs (api : Api) (node? : Option Str) :
    Except Str (List (Str × CtRecord)) :=
  match node? with
  | some n => perNodeList api n
  | none =>
    match api.nodesGet with
    | .error e => .error e
    | .ok nraw =>
      clusterFold api
        ((asListNodes nraw).filterMap
          (fun it =>
            match it.node with
            | some nm => if nm = [] then none else some nm
            | none => none)) []

/-! ## Selector resolution -/

/-- A resolved target `(node, vmid, label)`. -/
structure Target where
  node : Str
  vmid : ℤ
  label : Str
deriving DecidableEq

/-- The `(node, vmid)` key of a target. -/
def projPair (t : Target) : Str × ℤ := (t.node, t.vmid)

/-- The per-token dispatch of `_resolve_targets` (containers.py lines
320-352): `node:id`, `node/name`, all-digit id, or bare name. -/
inductive TokCase where
  | nodeId (node : Str) (vmid : Option ℤ)
  | nodeName (node : Str) (nm : Str)
  | bareId (v : ℤ)
  | bareName (nm : Str)
deriving DecidableEq

/-- Classify one selector token exactly as the chain of tests in
`_resolve_targets` does. -/
def classifyTok (tok : Str) : TokCase :=
  if ':' ∈ tok ∧ '/' ∉ tok then
    let p := splitFirst ':' tok
    TokCase.nodeId p.1 (parseIntOpt p.2)
  else if '/' ∈ tok ∧ ':' ∉ tok then
    let p := splitFirst '/' tok
    TokCase.nodeName p.1 (trimStr p.2)
  else if isDigitStr tok then TokCase.bareId ((digitsToNat tok : ℤ))
  else TokCase.bareName tok

/-- Display label of an inventory entry:
`name or hostname or f"ct-{vmid}"`. -/
def labelOf (r : CtRecord) (v : ℤ) : Str :=
  orStr r.name (orStr r.hostname (strLit "ct-" ++ intToStr v))

/-- Matches one classified token against the inventory, contributing zero or
more `(node, vmid, label)` triples; `node:id` stops at the first matching
entry, the other forms scan the whole inventory. -/
def resolveTok (inv : List (Str × CtRecord)) : TokCase → List Target
  | .nodeId _ none => []
  | .nodeId n (some v) =>
    match inv.find? (fun e => decide (e.1 = n) && decide (e.2.vmid.getD (-1) = v)) with
    | some e => [⟨n, v, labelOf e.2 v⟩]
    | none => []
  | .nodeName n nm =>
    inv.filterMap (fun e =>
      if e.1 = n ∧ (e.2.name = some nm ∨ e.2.hostname = some nm) then
        let v := e.2.vmid.getD (-1)
        if 0 ≤ v then some ⟨n, v, nm⟩ else none
      else none)
  | .bareId v =>
    inv.filterMap (fun e =>
      if e.2.vmid.getD (-1) = v then some ⟨e.1, v, labelOf e.2 v⟩ else none)
  | .bareName nm =>
    inv.filterMap (fun e =>
      if e.2.name = some nm ∨ e.2.hostname = some nm then
        let v := e.2.vmid.getD (-1)
        if 0 ≤ v then some ⟨e.1, v, nm⟩ else none
      else none)

/-- `selector.split(",")`, stripped, empty tokens dropped. -/
def tokenize (sel : Str) : List Str :=
  ((splitOnChar ',' sel).map trimStr).filter (fun t => !t.isEmpty)

/-- The pre-deduplication resolved list: token contributions in token order
(the `resolved` list of `_resolve_targets`). -/
def preDedup (inv : List (Str × CtRecord)) (sel : Str) : List Target :=
  match sel with
  | [] => []
  | _ => ((tokenize sel).map classifyTok).flatMap (resolveTok inv)

/-- One insertion into the `uniq` dict of `_resolve_targets`: a Python dict
keeps the first-insertion position of a key and overwrites its value. -/
def upsert (acc : List ((Str × ℤ) × Str)) (k : Str × ℤ) (v : Str) :
    List ((Str × ℤ) × Str) :=
  match acc with
  | [] => [(k, v)]
  | (k', v') :: t => if k' = k then (k', v) :: t else (k', v') :: upsert t k v

/-- The deduplication pass of `_resolve_targets` (containers.py lines
359-362). -/
def dedupTargets (l : List Target) : List Target :=
  (l.foldl (fun acc t => upsert acc (projPair t) t.label) []).map
    (fun p => ⟨p.1.1, p.1.2, p.2⟩)

/-- `_resolve_targets` (containers.py lines 304-362) as a function of the
already-enumerated inventory. -/
def resolveTargetsPure (inv : List (Str × CtRecord)) (sel : Str) : List Target :=
  dedupTargets (preDedup inv sel)

/-- `_resolve_targets` including its cluster-wide inventory enumeration,
whose remote errors propagate. -/
def resolveTargetsE (api : Api) (sel : Str) : Except Str (List Target) := do
  let inv ← listCtPairs api none
  pure (resolveTargetsPure inv sel)

/-! ## Bulk actions -/

/-- A per-target action result row. -/
structure ActionResult where
  ok : Bool
  node : Str
  vmid : ℤ
  name : Str
  message : Option Str
  error : Option Str
deriving DecidableEq

/-- One iteration of the `start_container` loop (containers.py lines
388-393): the remote call's outcome is captured into this target's row. -/
def startOne (api : Api) (t : Target) : ActionResult :=
  match api.startPost t.node t.vmid with
  | .ok m => ⟨true, t.node, t.vmid, t.label, some m, none⟩
  | .error e => ⟨false, t.node, t.vmid, t.label, none, some e⟩

/-- The `start_container` loop over all targets. -/
def startLoop (api : Api) (ts : List Target) : List ActionResult :=
  ts.map (startOne api)

/-- One iteration of the `stop_container` loop (containers.py lines
415-423): graceful shutdown with timeout, or forced stop. -/
def stopOne (api : Api) (graceful : Bool) (timeoutSeconds : ℤ) (t : Target) :
    ActionResult :=
  match
    (if graceful then api.shutdownPost t.node t.vmid timeoutSeconds
     else api.stopPost t.node t.vmid) with
  | .ok m => ⟨true, t.node, t.vmid, t.label, some m, none⟩
  | .error e => ⟨false, t.node, t.vmid, t.label, none, some e⟩

/-- The `stop_container` loop over all targets. -/
def stopLoop (api : Api) (graceful : Bool) (timeoutSeconds : ℤ)
    (ts : List Target) : List ActionResult :=
  ts.map (stopOne api graceful timeoutSeconds)

/-- One iteration of the `restart_container` loop (containers.py lines
443-448). -/
def restartOne (api : Api) (t : Target) : ActionResult :=
  match api.rebootPost t.node t.vmid with
  | .ok m => ⟨true, t.node, t.vmid, t.label, some m, none⟩
  | .error e => ⟨false, t.node, t.vmid, t.label, none, some e⟩

/-- The `restart_container` loop over all targets. -/
def restartLoop (api : Api) (ts : List Target) : List ActionResult :=
  ts.map (restartOne api)

/-- The change descriptions accumulated by `update_container_resources`
before any remote call (containers.py lines 490-499). -/
def updateChanges (cores mem swap : Option ℤ) : List Str :=
  (match cores with
   | some c => [strLit "cores=" ++ intToStr c]
   | none => []) ++
  (match mem with
   | some m => [strLit "memory=" ++ intToStr m ++ strLit "MiB"]
   | none => []) ++
  (match swap with
   | some s => [strLit "swap=" ++ intToStr s ++ strLit "MiB"]
   | none => [])

/-- Python `", ".join(changes) if changes else "no changes"`. -/
def joinChanges (l : List Str) : Str :=
  match l with
  | [] => strLit "no changes"
  | h :: t => h ++ (t.flatMap (fun s => strLit ", " ++ s))

/-- One iteration of the `update_container_resources` loop (containers.py
lines 485-515): a combined config update only when at least one of
cores/memory/swap is given, then an optional relative disk resize; the
first raised call flips the row to `ok = false` with the error text. -/
def updateOne (api : Api) (cores mem swap diskGb : Option ℤ) (disk : Str)
    (t : Target) : ActionResult :=
  let hasParams := cores.isSome || mem.isSome || swap.isSome
  let changes := updateChanges cores mem swap
  let step1 : Except Str Unit :=
    if hasParams then
      match api.configPut t.node t.vmid cores mem swap with
      | .ok _ => .ok ()
      | .error e => .error e
    else .ok ()
  match step1 with
  | .error e => ⟨false, t.node, t.vmid, t.label, none, some e⟩
  | .ok _ =>
    match diskGb with
    | none => ⟨true, t.node, t.vmid, t.label, some (joinChanges changes), none⟩
    | some g =>
      match api.resizePut t.node t.vmid disk (strLit "+" ++ intToStr g ++ strLit "G") with
      | .error e => ⟨false, t.node, t.vmid, t.label, none, some e⟩
      | .ok _ =>
        let changes' := changes ++
          [disk ++ strLit "+=" ++ intToStr g ++ strLit "G"]
        ⟨true, t.node, t.vmid, t.label, some (joinChanges changes'), none⟩

/-- The `update_container_resources` loop over all targets. -/
def updateLoop (api : Api) (cores mem swap diskGb : Option ℤ) (disk : Str)
    (ts : List Target) : List ActionResult :=
  ts.map (updateOne api cores mem swap diskGb disk)

/-- `start_container` (containers.py lines 377-400): resolve the selector,
treat an empty target list as a caller-facing error, then run the loop. -/
def startContainer (api : Api) (sel : Str) : Except Str (List ActionResult) := do
  let ts ← resolveTargetsE api sel
  if ts = [] then .error (strLit "No containers matched the selector")
  else .ok (startLoop api ts)

/-! ## Helper lemmas about the stats pipeline -/

lemma assembleStats_mem (m : MidStats) : (assembleStats m).mem_bytes = m.mem := rfl

lemma assembleStats_maxmem (m : MidStats) :
    (assembleStats m).maxmem_bytes = m.maxmem := rfl

lemma assembleStats_cpu (m : MidStats) : (assembleStats m).cpu_pct = m.cpu_pct := rfl

lemma assembleStats_memory (m : MidStats) :
    (assembleStats m).memory = m.memory_mib := rfl

lemma assembleStats_unlimited (m : MidStats) :
    (assembleStats m).unlimited_memory = m.unlimited := rfl

lemma fallbackPhase_not_trigger (l : MidStats) (r : Option ℚ × Option ℤ × Option ℤ)
    (h : ¬(l.mem = 0 ∨ l.maxmem = 0 ∨ l.cpu_pct = 0)) : fallbackPhase l r = l := by
  simp [fallbackPhase, h]

lemma fallbackPhase_unlimited (l : MidStats) (r : Option ℚ × Option ℤ × Option ℤ) :
    (fallbackPhase l r).unlimited = l.unlimited := by
  unfold fallbackPhase
  split <;> rfl

lemma fallbackPhase_cores (l : MidStats) (r : Option ℚ × Option ℤ × Option ℤ) :
    (fallbackPhase l r).cores = l.cores := by
  unfold fallbackPhase
  split <;> rfl

lemma fallbackPhase_mem_zero (l : MidStats) (r : Option ℚ × Option ℤ × Option ℤ)
    (h : l.mem = 0) : (fallbackPhase l r).mem = r.2.1.getD 0 := by
  simp [fallbackPhase, h]

lemma fallbackPhase_mem_keep (l : MidStats) (r : Option ℚ × Option ℤ × Option ℤ)
    (h : l.mem ≠ 0) : (fallbackPhase l r).mem = l.mem := by
  unfold fallbackPhase
  split
  · simp [h]
  · rfl

lemma fallbackPhase_maxmem_zero (l : MidStats) (r : Option ℚ × Option ℤ × Option ℤ)
    (h : l.maxmem = 0) :
    (fallbackPhase l r).maxmem = if r.2.2.getD 0 ≠ 0 then r.2.2.getD 0 else 0 := by
  simp [fallbackPhase, h]

lemma fallbackPhase_maxmem_keep (l : MidStats) (r : Option ℚ × Option ℤ × Option ℤ)
    (h : l.maxmem ≠ 0) : (fallbackPhase l r).maxmem = l.maxmem := by
  unfold fallbackPhase
  split
  · simp [h]
  · rfl

lemma fallbackPhase_cpu_zero (l : MidStats) (r : Option ℚ × Option ℤ × Option ℤ)
    (h : l.cpu_pct = 0) : (fallbackPhase l r).cpu_pct = r.1.getD 0 := by
  simp [fallbackPhase, h]

lemma fallbackPhase_cpu_keep (l : MidStats) (r : Option ℚ × Option ℤ × Option ℤ)
    (h : l.cpu_pct ≠ 0) : (fallbackPhase l r).cpu_pct = l.cpu_pct := by
  unfold fallbackPhase
  split
  · simp [h]
  · rfl

/-! ## Claim C2: `mem_pct` presence and value -/

/-- C2.  For every stats record produced by Stats Resolution (after all
fallback substitution), `mem_pct` is present iff `maxmem_bytes > 0`, and
when present it equals `round(mem_bytes / maxmem_bytes * 100, 2)`; when
`maxmem_bytes` is not positive the field is `None`, not zero. -/
theorem mem_pct_law (ctStatus : Option Str) (st : Except Str StatusPayload)
    (cfg : Except Str ConfigPayload) (rrd : Except Str (List (Option RrdSample))) :
    ((resolveStats ctStatus st cfg rrd).mem_pct.isSome
      ↔ 0 < (resolveStats ctStatus st cfg rrd).maxmem_bytes) ∧
    (resolveStats ctStatus st cfg rrd).mem_pct =
      (if 0 < (resolveStats ctStatus st cfg rrd).maxmem_bytes then
        some (round2 (((resolveStats ctStatus st cfg rrd).mem_bytes : ℚ) /
          ((resolveStats ctStatus st cfg rrd).maxmem_bytes : ℚ) * 100))
      else none) := by
  unfold resolveStats assembleStats
  constructor
  · split <;> simp_all
  · rfl

/-! ## Claim C3: when `unlimited_memory` is evaluated -/

/-- Config payload with every field absent (all memory aliases and swap
missing). -/
def cfgAllAbsent : ConfigPayload := emptyConfig

/-- Status payload with every field absent: live stats all degenerate. -/
def stAllAbsent : StatusPayload := emptyStatus

/-- RRD series whose last sample carries only `maxmem` (8 GiB). -/
def rrdMaxmemOnly : List (Option RrdSample) := [some ⟨none, none, some 8589934592⟩]

/-- C3 counterexample.  With an all-absent config (`swap` defaults to 0,
config memory 0) and degenerate live stats, the RRD fallback back-derives
`memory_mib = 8192` from the historical `maxmem` sample, yet
`unlimited_memory` is still `true`: it was computed before the fallback,
contradicting the claim that it must then be `false`. -/
theorem unlimited_memory_after_fallback_cex :
    (resolveStats none (.ok stAllAbsent) (.ok cfgAllAbsent) (.ok rrdMaxmemOnly)).memory
        = 8192 ∧
    (resolveStats none (.ok stAllAbsent) (.ok cfgAllAbsent) (.ok rrdMaxmemOnly)).unlimited_memory
        = true := by
  constructor <;>
  · simp [resolveStats, livePhase, fallbackPhase, assembleStats, rrdLast, statusLower,
      degradeSt, degradeCfg, rrdMaxmemOnly, cfgAllAbsent, stAllAbsent, emptyConfig,
      emptyStatus, cfgMemChain, orStr, lowerStr, strLit, asciiLower, round2, roundHE]
    try norm_num

/-- C3 amended.  `unlimited_memory` is evaluated before the historical
fallback, from the configuration alone: it is `true` iff the configured
swap (absent defaults to 0) is exactly 0 and the config-derived
`memory_mib` is exactly 0.  A historical back-derivation of `memory_mib`
never recomputes it. -/
theorem unlimited_memory_config_only (ctStatus : Option Str)
    (st : Except Str StatusPayload) (cfg : Except Str ConfigPayload)
    (rrd : Except Str (List (Option RrdSample))) :
    (resolveStats ctStatus st cfg rrd).unlimited_memory =
      decide ((degradeCfg cfg).swap.getD 0 = 0 ∧
        (cfgMemChain (degradeCfg cfg)).getD 0 = 0) := by
  unfold resolveStats
  rw [assembleStats_unlimited, fallbackPhase_unlimited]
  rfl

/-! ## Claim C4: the stopped override -/

/-- Status payload of a stopped container whose status endpoint still
reports a live `mem` of 500000000 bytes and a `maxmem` of 1 GiB. -/
def stStoppedLiveMem : StatusPayload :=
  ⟨some (strLit "stopped"), none, some 500000000, some 1073741824⟩

/-- RRD series whose last sample carries `mem = 12345`. -/
def rrdMemSample : List (Option RrdSample) := [some ⟨none, some 12345, none⟩]

/-- C4 counterexample.  For a stopped container the override zeroes
`mem_bytes`, but the RRD fallback (triggered by that very zero) then fills
it from the historical sample: the final `mem_bytes` is 12345, not the 0
the claim requires. -/
theorem stopped_mem_zero_cex :
    statusLower (degradeSt (.ok stStoppedLiveMem)).status none = strLit "stopped" ∧
    (resolveStats none (.ok stStoppedLiveMem) (.ok emptyConfig) (.ok rrdMemSample)).mem_bytes
      = 12345 := by
  constructor
  · decide
  · simp [resolveStats, livePhase, fallbackPhase, assembleStats, rrdLast, statusLower,
      degradeSt, degradeCfg, stStoppedLiveMem, rrdMemSample, emptyConfig, cfgMemChain,
      orStr, lowerStr, strLit, asciiLower, round2, roundHE]

/-- C4 amended.  When the resolved status string (live status first, else
the enumeration record's status) is `"stopped"`, the live `mem` value is
discarded: `mem_bytes` is zeroed before the historical fallback, so the
final `mem_bytes` equals the historical sample's `mem` when one is
available and 0 otherwise — it never equals the live value. -/
theorem stopped_mem_discards_live (ctStatus : Option Str)
    (st : Except Str StatusPayload) (cfg : Except Str ConfigPayload)
    (rrd : Except Str (List (Option RrdSample)))
    (h : statusLower (degradeSt st).status ctStatus = strLit "stopped") :
    (resolveStats ctStatus st cfg rrd).mem_bytes = ((rrdLast rrd).2.1).getD 0 := by
  have hm : (livePhase ctStatus st cfg).mem = 0 := by
    simp [livePhase, h]
  unfold resolveStats
  rw [assembleStats_mem]
  exact fallbackPhase_mem_zero _ _ hm

/-- C4 witness: the amended theorem applied at the concrete stopped
container above. -/
theorem stopped_mem_discards_live_witness :
    (resolveStats none (.ok stStoppedLiveMem) (.ok emptyConfig) (.ok rrdMemSample)).mem_bytes
        = ((rrdLast (.ok rrdMemSample)).2.1).getD 0 ∧
    ((rrdLast (.ok rrdMemSample)).2.1).getD 0 = 12345 := by
  refine ⟨stopped_mem_discards_live none (.ok stStoppedLiveMem) (.ok emptyConfig)
    (.ok rrdMemSample) (by decide), by decide⟩

/-! ## Claim C9: fetch failures degrade, never propagate -/

/-- C9.  Stats Resolution never surfaces a fetch failure: a raised
live-status fetch behaves exactly like an empty status dict, a raised
config fetch like an empty config dict, and a raised historical fetch like
an empty series; with all three failed, the record still carries every
stats field with its safe default (`cores = None`, `memory = 0`,
`cpu_pct = 0`, `mem_bytes = 0`, `maxmem_bytes = 0`, `mem_pct = None`,
`unlimited_memory` from the all-default config). -/
theorem stats_resolution_degrades (ctStatus : Option Str)
    (st : Except Str StatusPayload) (cfg : Except Str ConfigPayload)
    (rrd : Except Str (List (Option RrdSample))) (e1 e2 e3 : Str) :
    resolveStats ctStatus (.error e1) cfg rrd
      = resolveStats ctStatus (.ok emptyStatus) cfg rrd ∧
    resolveStats ctStatus st (.error e2) rrd
      = resolveStats ctStatus st (.ok emptyConfig) rrd ∧
    resolveStats ctStatus st cfg (.error e3)
      = resolveStats ctStatus st cfg (.ok []) ∧
    resolveStats none (.error e1) (.error e2) (.error e3)
      = ⟨none, 0, 0, 0, 0, none, true⟩ := by
  refine ⟨rfl, rfl, rfl, ?_⟩
  simp [resolveStats, livePhase, fallbackPhase, assembleStats, rrdLast, statusLower,
    degradeSt, degradeCfg, emptyConfig, emptyStatus, cfgMemChain, orStr, lowerStr,
    strLit, asciiLower, round2, roundHE]

/-! ## Claim C1: the RRD fallback law -/

/-- C1.  The historical fallback is consulted iff after the live/config
phase one of `mem_bytes`, `maxmem_bytes`, `cpu_pct` is zero — otherwise
the result is independent of the historical series and equal to the
live/config values — and the last sample fills only the still-zero fields:
a zero `cpu_pct` becomes the sample's cpu fraction times 100, a positive
`cpu_pct` and nonzero `mem_bytes`/`maxmem_bytes` are never overwritten,
and zero `mem_bytes`/`maxmem_bytes` are filled from the sample. -/
theorem rrd_fallback_law (ctStatus : Option Str) (st : Except Str StatusPayload)
    (cfg : Except Str ConfigPayload) (rrd : Except Str (List (Option RrdSample))) :
    (¬((livePhase ctStatus st cfg).mem = 0 ∨ (livePhase ctStatus st cfg).maxmem = 0 ∨
        (livePhase ctStatus st cfg).cpu_pct = 0) →
      ∀ rrd', resolveStats ctStatus st cfg rrd'
        = assembleStats (livePhase ctStatus st cfg)) ∧
    (0 < (livePhase ctStatus st cfg).cpu_pct →
      (resolveStats ctStatus st cfg rrd).cpu_pct
        = (livePhase ctStatus st cfg).cpu_pct) ∧
    ((livePhase ctStatus st cfg).mem ≠ 0 →
      (resolveStats ctStatus st cfg rrd).mem_bytes
        = (livePhase ctStatus st cfg).mem) ∧
    ((livePhase ctStatus st cfg).maxmem ≠ 0 →
      (resolveStats ctStatus st cfg rrd).maxmem_bytes
        = (livePhase ctStatus st cfg).maxmem) ∧
    ((livePhase ctStatus st cfg).cpu_pct = 0 →
      ∀ l sm, rrd = .ok l → l.getLast? = some (some sm) →
        (resolveStats ctStatus st cfg rrd).cpu_pct = (sm.cpu.getD 0) * 100) ∧
    ((livePhase ctStatus st cfg).mem = 0 →
      (resolveStats ctStatus st cfg rrd).mem_bytes
        = ((rrdLast rrd).2.1).getD 0) ∧
    ((livePhase ctStatus st cfg).maxmem = 0 →
      (resolveStats ctStatus st cfg rrd).maxmem_bytes
        = (if ((rrdLast rrd).2.2).getD 0 ≠ 0 then ((rrdLast rrd).2.2).getD 0 else 0)) := by
  refine ⟨?_, ?_, ?_, ?_, ?_, ?_, ?_⟩
  · intro h rrd'
    unfold resolveStats
    rw [fallbackPhase_not_trigger _ _ h]
  · intro h
    unfold resolveStats
    rw [assembleStats_cpu]
    exact fallbackPhase_cpu_keep _ _ (ne_of_gt h)
  · intro h
    unfold resolveStats
    rw [assembleStats_mem]
    exact fallbackPhase_mem_keep _ _ h
  · intro h
    unfold resolveStats
    rw [assembleStats_maxmem]
    exact fallbackPhase_maxmem_keep _ _ h
  · intro h l sm hok hlast
    unfold resolveStats
    rw [assembleStats_cpu, fallbackPhase_cpu_zero _ _ h]
    subst hok
    simp [rrdLast, hlast]
  · intro h
    unfold resolveStats
    rw [assembleStats_mem]
    exact fallbackPhase_mem_zero _ _ h
  · intro h
    unfold resolveStats
    rw [assembleStats_maxmem]
    exact fallbackPhase_maxmem_zero _ _ h

/-- A full RRD sample: cpu fraction 1/4, mem 123, maxmem 456. -/
def rrdSampleFull : RrdSample := ⟨some (1/4), some 123, some 456⟩

/-- C1 witness: with all-degenerate live stats the fallback fires, the cpu
percentage comes from the sample's fraction times 100 and `mem_bytes` from
the sample's `mem`. -/
theorem rrd_fallback_law_witness :
    (resolveStats none (.ok stAllAbsent) (.ok cfgAllAbsent)
        (.ok [some rrdSampleFull])).cpu_pct = (rrdSampleFull.cpu.getD 0) * 100 ∧
    (resolveStats none (.ok stAllAbsent) (.ok cfgAllAbsent)
        (.ok [some rrdSampleFull])).mem_bytes
      = ((rrdLast (.ok [some rrdSampleFull])).2.1).getD 0 := by
  have hcpu : (livePhase none (.ok stAllAbsent) (.ok cfgAllAbsent)).cpu_pct = 0 := by
    simp [livePhase, stAllAbsent, cfgAllAbsent, emptyStatus, emptyConfig, degradeSt,
      degradeCfg, cfgMemChain, statusLower, orStr, lowerStr, round2, roundHE]
  have hmem : (livePhase none (.ok stAllAbsent) (.ok cfgAllAbsent)).mem = 0 := by
    simp [livePhase, stAllAbsent, cfgAllAbsent, emptyStatus, emptyConfig, degradeSt,
      degradeCfg, cfgMemChain, statusLower, orStr, lowerStr]
  exact ⟨(rrd_fallback_law none (.ok stAllAbsent) (.ok cfgAllAbsent)
      (.ok [some rrdSampleFull])).2.2.2.2.1 hcpu [some rrdSampleFull] rrdSampleFull rfl rfl,
    (rrd_fallback_law none (.ok stAllAbsent) (.ok cfgAllAbsent)
      (.ok [some rrdSampleFull])).2.2.2.2.2.1 hmem⟩

/-! ## Claim C10: totality and unit bounds of `_b2h` -/

lemma b2hLoop_bound : ∀ (d : ℕ) (n : ℚ) (i : ℕ), i ≤ 5 → 5 - i ≤ d →
    (b2hLoop n i).2 ≤ 5 ∧ ((b2hLoop n i).2 < 5 → (b2hLoop n i).1 < 1024) := by
  intro d
  induction d with
  | zero =>
    intro n i hi hd
    have h5 : i = 5 := by omega
    subst h5
    rw [b2hLoop]
    simp
  | succ d ih =>
    intro n i hi hd
    rw [b2hLoop]
    by_cases hc : 1024 ≤ n ∧ i < 5
    · rw [if_pos hc]
      exact ih (n / 1024) (i + 1) (by omega) (by omega)
    · rw [if_neg hc]
      refine ⟨hi, ?_⟩
      intro hlt
      have hn : ¬(1024 : ℚ) ≤ n := fun hA => hc ⟨hA, hlt⟩
      exact lt_of_not_le hn

/-- C10.  `_b2h` is total: any input whose `float(...)` conversion fails
yields exactly `"0.00 B"`; for every parseable non-negative input the unit
index never exceeds 5 (`PiB`), the scaled mantissa is below 1024 whenever
the chosen unit is not the last one, and the result is always the
formatted mantissa followed by the chosen unit. -/
theorem b2h_total_bounds (v : PyVal) :
    (parseNum v = none → b2h v = strLit "0.00 B") ∧
    (∀ q, parseNum v = some q → 0 ≤ q →
      (b2hLoop q 0).2 ≤ 5 ∧ ((b2hLoop q 0).2 < 5 → (b2hLoop q 0).1 < 1024)) ∧
    (∀ q, parseNum v = some q →
      b2h v = format2 (b2hLoop q 0).1 ++ [' '] ++ unitStr (b2hLoop q 0).2) := by
  refine ⟨?_, ?_, ?_⟩
  · intro h
    simp [b2h, h]
  · intro q hq _
    exact b2hLoop_bound 5 q 0 (by omega) (by omega)
  · intro q hq
    simp [b2h, hq]

/-- C10 witness: the unparseable string `"abc"` yields `"0.00 B"`, and the
parseable input `5000000` satisfies the unit-index and mantissa bounds. -/
theorem b2h_total_bounds_witness :
    parseNum (PyVal.pstr (strLit "abc")) = none ∧
    b2h (PyVal.pstr (strLit "abc")) = strLit "0.00 B" ∧
    (b2hLoop ((5000000 : ℤ) : ℚ) 0).2 ≤ 5 ∧
    ((b2hLoop ((5000000 : ℤ) : ℚ) 0).2 < 5 → (b2hLoop ((5000000 : ℤ) : ℚ) 0).1 < 1024) := by
  refine ⟨by decide, (b2h_total_bounds (PyVal.pstr (strLit "abc"))).1 (by decide), ?_, ?_⟩
  · exact ((b2h_total_bounds (PyVal.pint 5000000)).2.1 _ rfl (by norm_num)).1
  · exact ((b2h_total_bounds (PyVal.pint 5000000)).2.1 _ rfl (by norm_num)).2

/-! ## Claim C5: one result per target, in order, failures isolated -/

/-- C5.  Every bulk action loop produces exactly one result per target, the
`i`-th result being fully determined by the `i`-th target alone (so sibling
failures cannot alter it and order is preserved), and a raised remote call
is captured into that target's row as `ok = false` with the error text. -/
theorem bulk_action_isolation (api : Api) (ts : List Target) (graceful : Bool)
    (timeoutSeconds : ℤ) (cores mem swap diskGb : Option ℤ) (disk : Str)
    (hne : ts ≠ []) :
    ((startLoop api ts).length = ts.length ∧
     (stopLoop api graceful timeoutSeconds ts).length = ts.length ∧
     (restartLoop api ts).length = ts.length ∧
     (updateLoop api cores mem swap diskGb disk ts).length = ts.length) ∧
    (∀ i : ℕ,
      (startLoop api ts)[i]? = (ts[i]?).map (startOne api) ∧
      (stopLoop api graceful timeoutSeconds ts)[i]?
        = (ts[i]?).map (stopOne api graceful timeoutSeconds) ∧
      (restartLoop api ts)[i]? = (ts[i]?).map (restartOne api) ∧
      (updateLoop api cores mem swap diskGb disk ts)[i]?
        = (ts[i]?).map (updateOne api cores mem swap diskGb disk)) ∧
    (∀ t e, api.startPost t.node t.vmid = .error e →
      startOne api t = ⟨false, t.node, t.vmid, t.label, none, some e⟩) ∧
    (∀ t e, api.shutdownPost t.node t.vmid timeoutSeconds = .error e →
      stopOne api true timeoutSeconds t = ⟨false, t.node, t.vmid, t.label, none, some e⟩) ∧
    (∀ t e, api.stopPost t.node t.vmid = .error e →
      stopOne api false timeoutSeconds t = ⟨false, t.node, t.vmid, t.label, none, some e⟩) ∧
    (∀ t e, api.rebootPost t.node t.vmid = .error e →
      restartOne api t = ⟨false, t.node, t.vmid, t.label, none, some e⟩) ∧
    (∀ t e, cores.isSome →
      api.configPut t.node t.vmid cores mem swap = .error e →
      updateOne api cores mem swap diskGb disk t
        = ⟨false, t.node, t.vmid, t.label, none, some e⟩) := by
  refine ⟨⟨?_, ?_, ?_, ?_⟩, ?_, ?_, ?_, ?_, ?_, ?_⟩
  · exact List.length_map ..
  · exact List.length_map ..
  · exact List.length_map ..
  · exact List.length_map ..
  · intro i
    refine ⟨?_, ?_, ?_, ?_⟩ <;> exact List.getElem?_map ..
  · intro t e h
    simp [startOne, h]
  · intro t e h
    simp [stopOne, h]
  · intro t e h
    simp [stopOne, h]
  · intro t e h
    simp [restartOne, h]
  · intro t e hc h
    simp [updateOne, h, hc]

/-- Three concrete targets; the bulk scenario of §8 of the spec. -/
def tgt1 : Target := ⟨strLit "pve1", 101, strLit "a"⟩

/-- Second concrete target, whose remote start call fails below. -/
def tgt2 : Target := ⟨strLit "pve1", 102, strLit "b"⟩

/-- Third concrete target. -/
def tgt3 : Target := ⟨strLit "pve2", 103, strLit "c"⟩

/-- An API whose `start` call raises exactly for vmid 102. -/
def apiStartFail : Api where
  nodesGet := .ok .malformed
  lxcGet := fun _ => .ok .malformed
  statusCurrent := fun _ _ => .error (strLit "na")
  configGet := fun _ _ => .error (strLit "na")
  rrddata := fun _ _ => .error (strLit "na")
  startPost := fun _ v => if v = 102 then .error (strLit "boom") else .ok (strLit "UPID")
  shutdownPost := fun _ _ _ => .ok (strLit "UPID")
  stopPost := fun _ _ => .ok (strLit "UPID")
  rebootPost := fun _ _ => .ok (strLit "UPID")
  configPut := fun _ _ _ _ _ => .ok (strLit "UPID")
  resizePut := fun _ _ _ _ => .ok (strLit "UPID")

/-- C5 witness: with three targets whose second start call raises, the loop
still yields three rows in order, and the failing target's row is
`ok = false` with the error text. -/
theorem bulk_action_isolation_witness :
    (startLoop apiStartFail [tgt1, tgt2, tgt3]).length = 3 ∧
    (startLoop apiStartFail [tgt1, tgt2, tgt3])[1]?
      = ([tgt1, tgt2, tgt3][1]?).map (startOne apiStartFail) ∧
    startOne apiStartFail tgt2
      = ⟨false, tgt2.node, tgt2.vmid, tgt2.label, none, some (strLit "boom")⟩ ∧
    startLoop apiStartFail [tgt1, tgt2, tgt3] =
      [⟨true, strLit "pve1", 101, strLit "a", some (strLit "UPID"), none⟩,
       ⟨false, strLit "pve1", 102, strLit "b", none, some (strLit "boom")⟩,
       ⟨true, strLit "pve2", 103, strLit "c", some (strLit "UPID"), none⟩] := by
  have h := bulk_action_isolation apiStartFail [tgt1, tgt2, tgt3] true 10
    none none none none (strLit "rootfs") (by decide)
  refine ⟨(h.1.1).trans (by decide), (h.2.1 1).1, ?_, by decide⟩
  exact h.2.2.1 tgt2 (strLit "boom") (by decide)

/-! ## Claim C8: failing node listings are not skipped -/

/-- A two-node cluster where `pve1` answers with one container and `pve2`'s
listing call raises. -/
def apiNodeRaises : Api where
  nodesGet := .ok (.plist [⟨some (strLit "pve1")⟩, ⟨some (strLit "pve2")⟩])
  lxcGet := fun n =>
    if n = strLit "pve1" then .ok (.plist [.dict ⟨some 100, none, none, none⟩])
    else .error (strLit "timeout")
  statusCurrent := fun _ _ => .error (strLit "na")
  configGet := fun _ _ => .error (strLit "na")
  rrddata := fun _ _ => .error (strLit "na")
  startPost := fun _ _ => .error (strLit "na")
  shutdownPost := fun _ _ _ => .error (strLit "na")
  stopPost := fun _ _ => .error (strLit "na")
  rebootPost := fun _ _ => .error (strLit "na")
  configPut := fun _ _ _ _ _ => .error (strLit "na")
  resizePut := fun _ _ _ _ => .error (strLit "na")

/-- A two-node cluster where `pve1`'s listing returns a malformed payload
and `pve2` answers with one container. -/
def apiNodeMalformed : Api where
  nodesGet := .ok (.plist [⟨some (strLit "pve1")⟩, ⟨some (strLit "pve2")⟩])
  lxcGet := fun n =>
    if n = strLit "pve2" then .ok (.plist [.dict ⟨some 200, none, none, none⟩])
    else .ok .malformed
  statusCurrent := fun _ _ => .error (strLit "na")
  configGet := fun _ _ => .error (strLit "na")
  rrddata := fun _ _ => .error (strLit "na")
  startPost := fun _ _ => .error (strLit "na")
  shutdownPost := fun _ _ _ => .error (strLit "na")
  stopPost := fun _ _ => .error (strLit "na")
  rebootPost := fun _ _ => .error (strLit "na")
  configPut := fun _ _ _ _ _ => .error (strLit "na")
  resizePut := fun _ _ _ _ => .error (strLit "na")

/-- C8 counterexample.  When `pve2`'s listing call raises, cluster-wide
enumeration does not skip it and complete with `pve1`'s entries: the error
propagates and the whole enumeration fails. -/
theorem failed_node_propagates_cex :
    listCtPairs apiNodeRaises none = .error (strLit "timeout") := by
  decide

/-- C8 amended.  In cluster-wide enumeration, a node whose listing call
returns a malformed payload contributes an empty sequence via payload
normalization and is effectively skipped; but a node whose listing call
raises is not skipped — its error propagates to the enumeration's caller
(and from there to the orchestrator's outer error handler), discarding the
entries of nodes that did answer. -/
theorem enumeration_skip_vs_propagation (api : Api) (n1 n2 : Str)
    (hn : api.nodesGet = .ok (.plist [⟨some n1⟩, ⟨some n2⟩]))
    (h1 : n1 ≠ []) (h2 : n2 ≠ []) :
    (api.lxcGet n1 = .ok .malformed →
      listCtPairs api none
        = (api.lxcGet n2).map (fun raw => (asListLxc raw).filterMap (itemToEntry n2))) ∧
    (∀ l1 e, api.lxcGet n1 = .ok (.plist l1) → api.lxcGet n2 = .error e →
      listCtPairs api none = .error e) := by
  constructor
  · intro hmal
    unfold listCtPairs
    rw [hn]
    simp only [asListNodes, List.filterMap_cons, List.filterMap_nil, h1, h2,
      ite_false, if_neg]
    unfold clusterFold perNodeList
    rw [hmal]
    cases hg : api.lxcGet n2 with
    | ok raw =>
      unfold clusterFold perNodeList
      rw [hg]
      rfl
    | error e =>
      unfold clusterFold perNodeList
      rw [hg]
      rfl
  · intro l1 e hok herr
    unfold listCtPairs
    rw [hn]
    simp only [asListNodes, List.filterMap_cons, List.filterMap_nil, h1, h2,
      ite_false, if_neg]
    unfold clusterFold perNodeList
    rw [hok]
    unfold clusterFold perNodeList
    rw [herr]

/-- C8 witness: the amended behaviour at the two concrete clusters above —
the malformed node is skipped while the other node's container is
enumerated, and the raising node's error propagates, discarding `pve1`'s
entry. -/
theorem enumeration_skip_vs_propagation_witness :
    listCtPairs apiNodeMalformed none
      = .ok [(strLit "pve2", ⟨some 200, none, none, none⟩)] ∧
    listCtPairs apiNodeRaises none = .error (strLit "timeout") := by
  constructor
  · exact ((enumeration_skip_vs_propagation apiNodeMalformed (strLit "pve1")
      (strLit "pve2") rfl (by decide) (by decide)).1 rfl).trans (by decide)
  · exact (enumeration_skip_vs_propagation apiNodeRaises (strLit "pve1")
      (strLit "pve2") rfl (by decide) (by decide)).2
      [.dict ⟨some 100, none, none, none⟩] (strLit "timeout") (by decide) (by decide)

/-! ## Helper lemmas about selector resolution and deduplication -/

/-- First-seen deduplication with an explicit set of already-seen keys. -/
def dedupSeen {α : Type} [DecidableEq α] (seen : List α) : List α → List α
  | [] => []
  | a :: t => if a ∈ seen then dedupSeen seen t else a :: dedupSeen (a :: seen) t

/-- First-seen deduplication: keep the first occurrence of each element, in
order of first occurrence. -/
def dedupFS {α : Type} [DecidableEq α] (l : List α) : List α := dedupSeen [] l

lemma dedupSeen_congr {α : Type} [DecidableEq α] :
    ∀ (l : List α) (s1 s2 : List α), (∀ x, x ∈ s1 ↔ x ∈ s2) →
      dedupSeen s1 l = dedupSeen s2 l := by
  intro l
  induction l with
  | nil => intro s1 s2 _; rfl
  | cons a t ih =>
    intro s1 s2 h
    unfold dedupSeen
    by_cases ha : a ∈ s1
    · rw [if_pos ha, if_pos ((h a).mp ha)]
      exact ih s1 s2 h
    · rw [if_neg ha, if_neg (fun hb => ha ((h a).mpr hb))]
      rw [ih (a :: s1) (a :: s2) (by intro x; simp [h x])]

/-- The keys (first components) of the `uniq` association list. -/
def keysOf (acc : List ((Str × ℤ) × Str)) : List (Str × ℤ) := acc.map Prod.fst

lemma upsert_keys (k : Str × ℤ) (v : Str) :
    ∀ acc, keysOf (upsert acc k v)
      = if k ∈ keysOf acc then keysOf acc else keysOf acc ++ [k] := by
  intro acc
  induction acc with
  | nil => simp [upsert, keysOf]
  | cons h t ih =>
    obtain ⟨k', v'⟩ := h
    by_cases hk : k' = k
    · subst hk
      simp [upsert, keysOf]
    · unfold upsert
      rw [if_neg hk]
      have hmem : (k ∈ keysOf ((k', v') :: t)) = (k ∈ keysOf t) := by
        simp [keysOf, Ne.symm hk]
      unfold keysOf at ih hmem ⊢
      simp only [List.map_cons, List.mem_cons]
      by_cases hin : k ∈ t.map Prod.fst
      · simp only [hin, or_true, if_true] at ih ⊢
        simp [ih, Ne.symm hk]
      · simp only [hin, or_false, if_false] at ih ⊢
        simp [ih, Ne.symm hk]

lemma foldl_upsert_keys :
    ∀ (l : List Target) (acc : List ((Str × ℤ) × Str)),
      keysOf (l.foldl (fun a t => upsert a (projPair t) t.label) acc)
        = keysOf acc ++ dedupSeen (keysOf acc) (l.map projPair) := by
  intro l
  induction l with
  | nil => intro acc; simp [dedupSeen]
  | cons t rest ih =>
    intro acc
    rw [List.foldl_cons, ih, upsert_keys]
    by_cases hk : projPair t ∈ keysOf acc
    · rw [if_pos hk]
      simp [dedupSeen, hk]
    · rw [if_neg hk]
      rw [dedupSeen_congr (rest.map projPair) (keysOf acc ++ [projPair t])
        (projPair t :: keysOf acc) (by intro x; simp [or_comm])]
      rw [List.map_cons]
      have hcons : dedupSeen (keysOf acc) (projPair t :: rest.map projPair)
          = projPair t :: dedupSeen (projPair t :: keysOf acc) (rest.map projPair) := by
        simp only [dedupSeen]
        rw [if_neg hk]
      rw [hcons]
      simp

lemma dedupTargets_pairs (l : List Target) :
    (dedupTargets l).map projPair = dedupFS (l.map projPair) := by
  unfold dedupTargets dedupFS
  rw [List.map_map]
  have hfun : (projPair ∘ fun p : (Str × ℤ) × Str => Target.mk p.1.1 p.1.2 p.2)
      = Prod.fst := by
    funext p
    simp [projPair]
  rw [hfun]
  have := foldl_upsert_keys l []
  unfold keysOf at this
  simpa using this

/-- Is the pair `(node, id)` present in the inventory (an entry on that
node whose vmid field is that id)? -/
def pairPresent (inv : List (Str × CtRecord)) (p : Str × ℤ) : Bool :=
  inv.any (fun e => decide (e.1 = p.1) && decide (e.2.vmid = some p.2))

lemma resolveTok_nodeId_pairs (inv : List (Str × CtRecord)) (n : Str) (v : ℤ)
    (h2 : ∀ e ∈ inv, (e.2).vmid.isSome) :
    (resolveTok inv (.nodeId n (some v))).map projPair
      = if pairPresent inv (n, v) then [(n, v)] else [] := by
  simp only [resolveTok]
  cases hf : inv.find? (fun e => decide (e.1 = n) && decide (e.2.vmid.getD (-1) = v)) with
  | some e =>
    have hmem := List.mem_of_find?_eq_some hf
    have hpred := List.find?_some hf
    have hany : pairPresent inv (n, v) = true := by
      unfold pairPresent
      rw [List.any_eq_true]
      refine ⟨e, hmem, ?_⟩
      simp only [Bool.and_eq_true, decide_eq_true_eq] at hpred ⊢
      obtain ⟨hn', hv⟩ := hpred
      obtain ⟨w, hw⟩ := Option.isSome_iff_exists.mp (h2 e hmem)
      rw [hw] at hv
      simp only [Option.getD_some] at hv
      exact ⟨hn', by rw [hw, hv]⟩
    rw [if_pos hany]
    simp [projPair]
  | none =>
    have hall := List.find?_eq_none.mp hf
    have hany : pairPresent inv (n, v) = false := by
      unfold pairPresent
      rw [List.any_eq_false]
      intro e hmem hc
      simp only [Bool.and_eq_true, decide_eq_true_eq] at hc
      obtain ⟨hn', hv⟩ := hc
      have := hall e hmem
      simp only [Bool.and_eq_true, decide_eq_true_eq, not_and] at this
      exact this hn' (by simp [hv])
    rw [if_neg (by simp [hany])]
    rfl

lemma flatMap_nodeId_pairs (inv : List (Str × CtRecord))
    (h2 : ∀ e ∈ inv, (e.2).vmid.isSome) :
    ∀ (pairs : List (Str × ℤ)),
      (((pairs.map (fun p => TokCase.nodeId p.1 (some p.2))).flatMap
        (resolveTok inv)).map projPair)
        = pairs.filter (pairPresent inv) := by
  intro pairs
  induction pairs with
  | nil => simp
  | cons p ps ih =>
    obtain ⟨pn, pv⟩ := p
    rw [List.map_cons, List.flatMap_cons, List.map_append,
      resolveTok_nodeId_pairs inv pn pv h2, ih, List.filter_cons]
    by_cases hp : pairPresent inv (pn, pv) = true
    · rw [if_pos hp, if_pos hp]
      rfl
    · rw [if_neg hp, if_neg hp]
      rfl

lemma resolveTok_bareId_pairs (inv : List (Str × CtRecord)) (v : ℤ) :
    (resolveTok inv (.bareId v)).map projPair
      = (inv.filter (fun e => decide (e.2.vmid.getD (-1) = v))).map
          (fun e => (e.1, v)) := by
  simp only [resolveTok]
  induction inv with
  | nil => simp
  | cons e t ih =>
    rw [List.filterMap_cons, List.filter_cons]
    by_cases hc : e.2.vmid.getD (-1) = v
    · simp [hc, projPair, ih]
    · simp [hc, ih]

/-! ## Claim C6: selector resolution is deduplicated in first-seen order -/

/-- C6.  For every selector and inventory, the resolved target list is the
pre-deduplication resolved list (token contributions in token order)
deduplicated by `(node, id)` in first-seen order; and for a selector made
only of well-formed `node:id` tokens, the result is exactly the pairs named
by the tokens that are present in inventory, deduplicated, in first-seen
order. -/
theorem selector_dedup_first_seen (inv : List (Str × CtRecord))
    (pairs : List (Str × ℤ)) (sel : Str)
    (h1 : (tokenize sel).map classifyTok
      = pairs.map (fun p => TokCase.nodeId p.1 (some p.2)))
    (h2 : ∀ e ∈ inv, (e.2).vmid.isSome) :
    (∀ (inv' : List (Str × CtRecord)) (sel' : Str),
      (resolveTargetsPure inv' sel').map projPair
        = dedupFS ((preDedup inv' sel').map projPair)) ∧
    (resolveTargetsPure inv sel).map projPair
      = dedupFS (pairs.filter (pairPresent inv)) := by
  refine ⟨fun inv' sel' => dedupTargets_pairs _, ?_⟩
  have hpre : (preDedup inv sel).map projPair = pairs.filter (pairPresent inv) := by
    cases hsel : sel with
    | nil =>
      subst hsel
      have htok : tokenize ([] : Str) = [] := rfl
      rw [htok] at h1
      have h0 : pairs = [] := List.map_eq_nil_iff.mp h1.symm
      subst h0
      simp [preDedup]
    | cons c cs =>
      subst hsel
      simp only [preDedup]
      rw [h1]
      exact flatMap_nodeId_pairs inv h2 pairs
  exact (dedupTargets_pairs _).trans (by rw [hpre])

/-- A two-node inventory for the selector witnesses. -/
def invTwoNodes : List (Str × CtRecord) :=
  [(strLit "pve1", ⟨some 100, some (strLit "web"), none, none⟩),
   (strLit "pve2", ⟨some 200, some (strLit "db"), none, none⟩)]

/-- C6 witness: a selector of `node:id` tokens with a duplicate and an
absent pair resolves to exactly the present pairs, deduplicated, in
first-seen order. -/
theorem selector_dedup_first_seen_witness :
    (resolveTargetsPure invTwoNodes
        (strLit "pve1:100,pve1:100,pve9:300,pve2:200")).map projPair
      = dedupFS (([(strLit "pve1", (100 : ℤ)), (strLit "pve1", 100),
          (strLit "pve9", 300), (strLit "pve2", 200)]).filter
            (pairPresent invTwoNodes)) ∧
    (resolveTargetsPure invTwoNodes
        (strLit "pve1:100,pve1:100,pve9:300,pve2:200")).map projPair
      = [(strLit "pve1", 100), (strLit "pve2", 200)] := by
  have h := (selector_dedup_first_seen invTwoNodes
    [(strLit "pve1", 100), (strLit "pve1", 100), (strLit "pve9", 300),
     (strLit "pve2", 200)]
    (strLit "pve1:100,pve1:100,pve9:300,pve2:200") (by decide) (by decide)).2
  exact ⟨h, h.trans (by decide)⟩

/-! ## Claim C7: a bare numeric id matches across all nodes -/

/-- C7.  A selector consisting of one all-digit token resolves against
every node's inventory: the result is one target per inventory entry whose
id matches, across all nodes (deduplicated by `(node, id)`), not just the
first match. -/
theorem bare_id_matches_all_nodes (inv : List (Str × CtRecord)) (sel : Str)
    (v : ℤ) (h1 : (tokenize sel).map classifyTok = [TokCase.bareId v]) :
    (resolveTargetsPure inv sel).map projPair
      = dedupFS ((inv.filter (fun e => decide (e.2.vmid.getD (-1) = v))).map
          (fun e => (e.1, v))) := by
  cases hsel : sel with
  | nil =>
    subst hsel
    have htok : tokenize ([] : Str) = [] := rfl
    rw [htok] at h1
    exact absurd h1 (by simp)
  | cons c cs =>
    subst hsel
    have hpre : (preDedup inv (c :: cs)).map projPair
        = (inv.filter (fun e => decide (e.2.vmid.getD (-1) = v))).map
            (fun e => (e.1, v)) := by
      simp only [preDedup]
      rw [h1]
      simp only [List.flatMap_cons, List.flatMap_nil, List.append_nil]
      exact resolveTok_bareId_pairs inv v
    exact (dedupTargets_pairs _).trans (by rw [hpre])

/-- The id-collision inventory of §8 of the spec: id 200 exists on both
`pve1` (named web) and `pve2` (named db). -/
def invIdCollision : List (Str × CtRecord) :=
  [(strLit "pve1", ⟨some 200, some (strLit "web"), none, none⟩),
   (strLit "pve2", ⟨some 200, some (strLit "db"), none, none⟩)]

/-- C7 witness: selector `"200"` resolves to both targets of the
id-collision inventory, one per node. -/
theorem bare_id_matches_all_nodes_witness :
    (resolveTargetsPure invIdCollision (strLit "200")).map projPair
      = dedupFS ((invIdCollision.filter
          (fun e => decide (e.2.vmid.getD (-1) = 200))).map (fun e => (e.1, 200))) ∧
    (resolveTargetsPure invIdCollision (strLit "200")).map projPair
      = [(strLit "pve1", 200), (strLit "pve2", 200)] := by
  have h := bare_id_matches_all_nodes invIdCollision (strLit "200") 200 (by decide)
  exact ⟨h, h.trans (by decide)⟩
